import Mathlib

/-!
# Verification of the committed-entry application pipeline

A shallow embedding of the replica application state machine
(`replica_application_state_machine.go`): the force-error check
(`checkForcedErr`), the application batch (`replicaAppBatch.Stage`,
`ApplyToStateMachine`, `addAppliedStateKeyToBatch`), the ephemeral batch,
and the side-effect dispatcher (`ApplySideEffects`,
`handleNonTrivialReplicatedEvalResult`).

Pure data is translated directly from the source.  External collaborators
(the storage engine, the state loader, hlc timestamps, lease equivalence)
are modelled abstractly: timestamps as integers, engine writes as an
explicit list of write operations, fallible storage calls as boolean
switches in a `StorageEnv`, and `roachpb.Lease.Equivalent` as an explicit
function parameter `equiv`.  Both kinds of process-stopping failure in the
source (returned `nonDeterministicFailure` values and `log.Fatalf` calls)
are modelled as `Except` errors with distinct constructors.
-/

namespace RaftApply

/-- Hybrid-logical-clock timestamp, modelled as a totally ordered integer
(the pipeline only compares, equates and maxes timestamps). -/
abbrev Timestamp := Int

/-- Embedding of `roachpb.ReplicaDescriptor`: the identity of one replica of a range. -/
structure ReplicaDescriptor where
  nodeID : Nat := 0
  storeID : Nat := 0
  replicaID : Nat := 0
deriving DecidableEq, Repr, Inhabited

/-- Embedding of `roachpb.RangeDescriptor`: the replicas of a range plus the identifiers
the pre-apply triggers need. -/
structure RangeDescriptor where
  rangeID : Nat := 0
  nextReplicaID : Nat := 0
  replicas : List ReplicaDescriptor := []
deriving DecidableEq, Repr, Inhabited

/-- Translation of `RangeDescriptor.GetReplicaDescriptor`: look a replica up by store id. -/
def RangeDescriptor.getReplicaDescriptor (d : RangeDescriptor) (storeID : Nat) :
    Option ReplicaDescriptor :=
  d.replicas.find? (fun r => r.storeID == storeID)

/-- Embedding of `roachpb.Lease`: sequence number, proposal timestamp and target replica
(the fields `checkForcedErr` reads). -/
structure Lease where
  sequence : Nat := 0
  proposedTS : Timestamp := 0
  replica : ReplicaDescriptor := {}
deriving DecidableEq, Repr, Inhabited

/-- Embedding of `enginepb.MVCCStats` restricted to representative fields: the estimates
flag plus a sample of the byte counters (including `SysBytes`, which the
legacy applied-state write adjusts). -/
structure MVCCStats where
  containsEstimates : Bool := false
  liveBytes : Int := 0
  keyBytes : Int := 0
  valBytes : Int := 0
  sysBytes : Int := 0
deriving DecidableEq, Repr, Inhabited

/-- Embedding of `enginepb.MVCCStatsDelta`: the delta shape of the stats (no estimates
flag). -/
structure MVCCStatsDelta where
  liveBytes : Int := 0
  keyBytes : Int := 0
  valBytes : Int := 0
  sysBytes : Int := 0
deriving DecidableEq, Repr, Inhabited

/-- Translation of `MVCCStatsDelta.ToStats`. -/
def MVCCStatsDelta.toStats (d : MVCCStatsDelta) : MVCCStats :=
  { liveBytes := d.liveBytes, keyBytes := d.keyBytes,
    valBytes := d.valBytes, sysBytes := d.sysBytes }

/-- Translation of `MVCCStats.ToStatsDelta` (used by the deprecated-delta migration). -/
def MVCCStats.toStatsDelta (s : MVCCStats) : MVCCStatsDelta :=
  { liveBytes := s.liveBytes, keyBytes := s.keyBytes,
    valBytes := s.valBytes, sysBytes := s.sysBytes }

/-- Embedding of `MVCCStats.Add`: commutative component-wise addition; the estimates
flag is absorbed disjunctively. -/
def MVCCStats.add (a b : MVCCStats) : MVCCStats :=
  { containsEstimates := a.containsEstimates || b.containsEstimates,
    liveBytes := a.liveBytes + b.liveBytes,
    keyBytes := a.keyBytes + b.keyBytes,
    valBytes := a.valBytes + b.valBytes,
    sysBytes := a.sysBytes + b.sysBytes }

/-- Embedding of `roachpb.RaftTruncatedState`. -/
structure TruncatedState where
  index : Nat := 0
  term : Nat := 0
deriving DecidableEq, Repr, Inhabited

/-- The optional-field record `ReplicatedEvalResult.State` (a
`storagepb.ReplicaState` used as a delta: every field optional). -/
structure ReplicaStateUpdate where
  lease : Option Lease := none
  desc : Option RangeDescriptor := none
  gcThreshold : Option Timestamp := none
  truncatedState : Option TruncatedState := none
  usingAppliedStateKey : Bool := false
  stats : Option MVCCStats := none
deriving DecidableEq, Repr, Inhabited

/-- Payload of a split trigger (the descriptors of both halves). -/
structure SplitTrigger where
  leftDesc : RangeDescriptor := {}
  rightDesc : RangeDescriptor := {}
deriving DecidableEq, Repr, Inhabited

/-- Payload of a merge trigger (the subsumed right-hand descriptor). -/
structure MergeTrigger where
  rightDesc : RangeDescriptor := {}
deriving DecidableEq, Repr, Inhabited

/-- Payload of an AddSSTable ingestion request (opaque bytes). -/
structure AddSSTablePayload where
  data : List Nat := []
deriving DecidableEq, Repr, Inhabited

/-- Payload of a replica configuration change. -/
structure ChangeReplicasPayload where
  changeType : Nat := 0
  replica : ReplicaDescriptor := {}
deriving DecidableEq, Repr, Inhabited

/-- Payload of a compute-checksum request. -/
structure ComputeChecksumPayload where
  checksumID : Nat := 0
deriving DecidableEq, Repr, Inhabited

/-- Embedding of `storagepb.ReplicatedEvalResult`: a record of optional effects.  The
zero value `{}` is the empty result. -/
structure ReplicatedEvalResult where
  isLeaseRequest : Bool := false
  timestamp : Timestamp := 0
  prevLeaseProposal : Option Timestamp := none
  delta : MVCCStatsDelta := {}
  deprecatedDelta : Option MVCCStats := none
  state : Option ReplicaStateUpdate := none
  split : Option SplitTrigger := none
  merge : Option MergeTrigger := none
  addSSTable : Option AddSSTablePayload := none
  changeReplicas : Option ChangeReplicasPayload := none
  computeChecksum : Option ComputeChecksumPayload := none
  raftLogDelta : Int := 0
  suggestedCompactions : List Nat := []
  blockReads : Bool := false
deriving DecidableEq, Repr, Inhabited

/-- Opaque storage-engine write batch bytes. -/
structure WriteBatch where
  data : List Nat := []
deriving DecidableEq, Repr, Inhabited

/-- Opaque logical operation log for the change feed. -/
structure LogicalOpLog where
  ops : List Nat := []
deriving DecidableEq, Repr, Inhabited

/-- Embedding of `storagepb.RaftCommand`: what is stored in a raft entry. -/
structure RaftCommand where
  proposerReplica : ReplicaDescriptor := {}
  proposerLeaseSequence : Nat := 0
  deprecatedProposerLease : Option Lease := none
  maxLeaseIndex : Nat := 0
  replicatedEvalResult : ReplicatedEvalResult := {}
  writeBatch : Option WriteBatch := none
  logicalOpLog : Option LogicalOpLog := none
deriving DecidableEq, Repr, Inhabited

/-- Embedding of `storagepb.ReplicaState`: the live replica state summary. -/
structure ReplicaState where
  raftAppliedIndex : Nat := 0
  leaseAppliedIndex : Nat := 0
  lease : Lease := {}
  desc : RangeDescriptor := {}
  gcThreshold : Timestamp := 0
  stats : MVCCStats := {}
  truncatedState : Option TruncatedState := none
  usingAppliedStateKey : Bool := false
deriving DecidableEq, Repr, Inhabited

/-- Embedding of `proposalReevaluationReason`: whether a locally proposed command should
be retried, and at which level. -/
inductive ProposalReevaluationReason where
  | noReevaluation
  | illegalLeaseIndex
deriving DecidableEq, Repr, Inhabited

/-- The deterministic below-raft rejections `checkForcedErr` can produce
(the `roachpb.Error` payloads it constructs). -/
inductive ForcedError where
  | noopOnEmptyRaftEntry
  | leaseRejected (existing requested : Lease) (msg : String)
  | notLeaseHolder (currentLease : Lease) (proposerStoreID : Nat)
  | illegalLeaseIndexErr (observed required : Nat)
  | batchTimestampBeforeGC (ts threshold : Timestamp)
deriving DecidableEq, Repr, Inhabited

/-- Whether a forced error is a GC-threshold rejection. -/
def ForcedError.isGCErr : ForcedError → Bool
  | .batchTimestampBeforeGC _ _ => true
  | _ => false

/-- Embedding of `checkForcedErr`: decide deterministically whether a committed command
is applied or rejected, given the current replica state.  Returns the new
lease applied index, the proposal-retry hint and the optional rejection.
`equiv` models the external `roachpb.Lease.Equivalent` relation. -/
def checkForcedErr (equiv : Lease → Lease → Bool) (idKey : String)
    (raftCmd : RaftCommand) (isLocal : Bool) (replicaState : ReplicaState) :
    Nat × ProposalReevaluationReason × Option ForcedError :=
  let leaseIndex := replicaState.leaseAppliedIndex
  let isLeaseRequest := raftCmd.replicatedEvalResult.isLeaseRequest
  let requestedLease : Lease :=
    if isLeaseRequest then
      (raftCmd.replicatedEvalResult.state.bind ReplicaStateUpdate.lease).getD {}
    else {}
  if idKey = "" then
    -- Empty raft command: a log-internal no-op that must not execute.
    (leaseIndex, .noReevaluation, some .noopOnEmptyRaftEntry)
  else
    let leaseMismatch : Bool :=
      match raftCmd.deprecatedProposerLease with
      | some depLease =>
        -- Legacy proposer lease value: compare by equivalence.
        !(equiv depLease replicaState.lease)
      | none =>
        let m := raftCmd.proposerLeaseSequence != replicaState.lease.sequence
        if !m && isLeaseRequest then
          let m :=
            if replicaState.lease.sequence = requestedLease.sequence then
              !(equiv replicaState.lease requestedLease)
            else m
          match raftCmd.replicatedEvalResult.prevLeaseProposal with
          | some prev => if prev != replicaState.lease.proposedTS then true else m
          | none => m
        else m
    if leaseMismatch then
      if isLeaseRequest then
        (leaseIndex, .noReevaluation,
          some (.leaseRejected replicaState.lease requestedLease "proposed under invalid lease"))
      else
        (leaseIndex, .noReevaluation,
          some (.notLeaseHolder replicaState.lease raftCmd.proposerReplica.storeID))
    else
      -- After the lease check: the ordering check, then the GC threshold.
      let gcCheck : Nat → Nat × ProposalReevaluationReason × Option ForcedError := fun li =>
        let ts := raftCmd.replicatedEvalResult.timestamp
        if replicaState.gcThreshold < ts then (li, .noReevaluation, none)
        else (li, .noReevaluation, some (.batchTimestampBeforeGC ts replicaState.gcThreshold))
      if isLeaseRequest then
        -- Lease requests skip the MaxLeaseIndex counter, but the target
        -- replica must still be part of the range.
        if (replicaState.desc.getReplicaDescriptor requestedLease.replica.storeID).isNone then
          (leaseIndex, .noReevaluation,
            some (.leaseRejected replicaState.lease requestedLease "replica not part of range"))
        else gcCheck leaseIndex
      else if replicaState.leaseAppliedIndex < raftCmd.maxLeaseIndex then
        -- The happy case: the command applies at or ahead of the minimal
        -- permissible index; gaps are allowed.
        gcCheck raftCmd.maxLeaseIndex
      else
        -- Applying at a past log position: reject, retry hint when local.
        (leaseIndex, (if isLocal then .illegalLeaseIndex else .noReevaluation),
          some (.illegalLeaseIndexErr leaseIndex raftCmd.maxLeaseIndex))

/-- The lease-match condition of `checkForcedErr` for commands that are not
lease requests (the lease-request special cases never fire for them). -/
def leaseMatches (equiv : Lease → Lease → Bool) (raftCmd : RaftCommand)
    (replicaState : ReplicaState) : Bool :=
  match raftCmd.deprecatedProposerLease with
  | some depLease => equiv depLease replicaState.lease
  | none => raftCmd.proposerLeaseSequence == replicaState.lease.sequence

/-- Embedding of `raftpb.EntryType`: the two entry kinds the state machine applies. -/
inductive EntryType where
  | normal
  | confChange
deriving DecidableEq, Repr, Inhabited

/-- A raft entry header: index, term, kind, and the payload size (only the
emptiness of the payload is observed, for the empty-entry counter). -/
structure RaftEntry where
  index : Nat := 0
  term : Nat := 0
  typ : EntryType := .normal
  dataLen : Nat := 0
deriving DecidableEq, Repr, Inhabited

/-- The outstanding local proposal attached to a locally proposed command:
the max lease index it was last proposed at and whether it has already been
finished by a previous application. -/
structure ProposalData where
  maxLeaseIndex : Nat := 0
  applied : Bool := false
deriving DecidableEq, Repr, Inhabited

/-- Embedding of `replicatedCmd`: a decoded committed entry, together with the fields
populated while it is being checked and staged. -/
structure replicatedCmd where
  ent : RaftEntry := {}
  idKey : String := ""
  raftCmd : RaftCommand := {}
  proposal : Option ProposalData := none
  localResult : Option Nat := none
  cc : Nat := 0
  leaseIndex : Nat := 0
  proposalRetry : ProposalReevaluationReason := .noReevaluation
  forcedErr : Option ForcedError := none
  splitMergeUnlock : Bool := false
deriving DecidableEq, Repr, Inhabited

/-- Modelled from the spec: `is_local` is "true if this replica is waiting
for completion", i.e. the command carries an outstanding local proposal. -/
def replicatedCmd.IsLocal (c : replicatedCmd) : Bool := c.proposal.isSome

/-- Modelled from the spec: a command is rejected iff the force-error check
attached a forced error to it. -/
def replicatedCmd.Rejected (c : replicatedCmd) : Bool := c.forcedErr.isSome

/-- Embedding of `shouldApplyCommand`: run the force-error check against the given state
view and record its outputs on the command; the command should be applied
iff no forced error was attached.  (The testing-only apply filter of the
source is absent in production and is not modelled.) -/
def shouldApplyCommand (equiv : Lease → Lease → Bool) (cmd : replicatedCmd)
    (replicaState : ReplicaState) : replicatedCmd :=
  let r := checkForcedErr equiv cmd.idKey cmd.raftCmd cmd.IsLocal replicaState
  { cmd with leaseIndex := r.1, proposalRetry := r.2.1, forcedErr := r.2.2 }

/-- Every process-stopping failure of the pipeline: returned
`nonDeterministicFailure` values and `log.Fatalf` assertion failures. -/
inductive NonDetFailure where
  | zeroIndex
  | indexGap (applied idx : Nat)
  | deprecatedDeltaConflict
  | logicalOpLogWithoutWriteBatch
  | migrateFailed
  | setRangeAppliedFailed
  | setLegacyAppliedFailed
  | setMVCCStatsFailed
  | commitFailed
  | zeroValueNonTrivialResult
  | unhandledField
  | residualSideEffects
  | unexpectedChangeReplicas
  | leaseIndexMismatchOnFinish
  | doubleApply
deriving DecidableEq, Repr, Inhabited

/-- The engine writes a batch can accumulate, one constructor per distinct
key family the pipeline touches. -/
inductive WriteOp where
  | applyWriteBatch (data : List Nat)
  | splitRHSHardState (rangeID : Nat)
  | preDestroyRange (rangeID : Nat) (nextReplicaID : Nat)
  | setTruncatedState (ts : TruncatedState)
  | deleteLegacyAppliedIndexKeys
  | deleteLegacyRangeStatsKey
  | setRangeAppliedState (raftIdx leaseIdx : Nat) (stats : MVCCStats)
  | setLegacyAppliedIndex (raftIdx leaseIdx : Nat)
  | setLegacyMVCCStats (stats : MVCCStats)
deriving DecidableEq, Repr, Inhabited

/-- Embedding of `replicaAppBatch`: the application batch.  `state` is the batch's view
of the replica state (stats included, by value), `batch` the accumulated
engine write batch, `migrateToAppliedStateKey` the commit-time migration
flag, plus the counters of the source. -/
structure replicaAppBatch where
  state : ReplicaState := {}
  batch : List WriteOp := []
  migrateToAppliedStateKey : Bool := false
  maxTS : Timestamp := 0
  entries : Nat := 0
  emptyEntries : Nat := 0
  mutations : Nat := 0
deriving DecidableEq, Repr, Inhabited

/-- Embedding of `migrateReplicatedResult`: normalize a command that still carries the
deprecated stats-delta shape; both shapes populated at once is fatal. -/
def replicaAppBatch.migrateReplicatedResult (cmd : replicatedCmd) :
    Except NonDetFailure replicatedCmd :=
  let res := cmd.raftCmd.replicatedEvalResult
  match res.deprecatedDelta with
  | none => .ok cmd
  | some dep =>
    if res.delta ≠ ({} : MVCCStatsDelta) then .error .deprecatedDeltaConflict
    else
      .ok { cmd with raftCmd := { cmd.raftCmd with replicatedEvalResult :=
        { res with delta := dep.toStatsDelta, deprecatedDelta := none } } }

/-- Embedding of `stageWriteBatch`: apply the command's opaque write batch to the
application batch, tracking the mutation count. -/
def replicaAppBatch.stageWriteBatch (b : replicaAppBatch) (cmd : replicatedCmd) :
    replicaAppBatch :=
  match cmd.raftCmd.writeBatch with
  | none => b
  | some wb =>
    { b with mutations := b.mutations + wb.data.length,
             batch := b.batch ++ [WriteOp.applyWriteBatch wb.data] }

/-- Modelled from the spec: `handleTruncatedStateBelowRaft` (external to
this file's source) decides whether a proposed log truncation applies
locally — it does iff it moves the local truncation point forward. -/
def handleTruncatedStateBelowRaft (old : Option TruncatedState)
    (ts : TruncatedState) : Bool :=
  match old with
  | none => true
  | some o => o.index < ts.index

/-- Embedding of `runPreApplyTriggers`: the triggers that must fire before the batch is
committed.  SSTable ingestion goes to the engine directly (and clears its
field); split writes the RHS hard state into this batch; merge pre-destroys
the subsumed range in this batch; a truncation that does not apply locally
is dropped from the result; a logical op log without a write batch is
fatal.  External helpers (`addSSTablePreApply`, `splitPreApply`,
`preDestroyRaftMuLocked`) are modelled as the writes they add. -/
def replicaAppBatch.runPreApplyTriggers (b : replicaAppBatch) (cmd : replicatedCmd) :
    Except NonDetFailure (replicaAppBatch × replicatedCmd) :=
  let res := cmd.raftCmd.replicatedEvalResult
  let res := if res.addSSTable.isSome then { res with addSSTable := none } else res
  let b :=
    match res.split with
    | some st => { b with batch := b.batch ++ [WriteOp.splitRHSHardState st.rightDesc.rangeID] }
    | none => b
  let b :=
    match res.merge with
    | some mg => { b with batch := b.batch ++
        [WriteOp.preDestroyRange mg.rightDesc.rangeID mg.rightDesc.nextReplicaID] }
    | none => b
  let step :=
    match res.state with
    | some s =>
      match s.truncatedState with
      | some ts =>
        if handleTruncatedStateBelowRaft b.state.truncatedState ts then
          ({ b with batch := b.batch ++ [WriteOp.setTruncatedState ts] }, res)
        else
          -- Truncation discarded: drop it from the in-memory result.  (The
          -- source also marks the local raft log size untrusted, a
          -- replica-local diagnostic outside the modelled state.)
          (b, { res with state := some { s with truncatedState := none }, raftLogDelta := 0 })
      | none => (b, res)
    | none => (b, res)
  let b := step.1
  let res := step.2
  if cmd.raftCmd.writeBatch.isSome then
    .ok (b, { cmd with raftCmd := { cmd.raftCmd with replicatedEvalResult := res } })
  else if cmd.raftCmd.logicalOpLog.isSome then
    .error .logicalOpLogWithoutWriteBatch
  else
    .ok (b, { cmd with raftCmd := { cmd.raftCmd with replicatedEvalResult := res } })

/-- Embedding of `stageTrivialReplicatedEvalResult`: fold the trivial portion of the
command's result into the batch's state view: applied indices, stats delta,
the split estimates reset and the applied-state-key migration flag. -/
def replicaAppBatch.stageTrivialReplicatedEvalResult (b : replicaAppBatch)
    (cmd : replicatedCmd) : replicaAppBatch :=
  let st := b.state
  let st := if cmd.ent.index ≠ 0 then { st with raftAppliedIndex := cmd.ent.index } else st
  let st := if cmd.leaseIndex ≠ 0 then { st with leaseAppliedIndex := cmd.leaseIndex } else st
  let res := cmd.raftCmd.replicatedEvalResult
  let st := { st with stats := st.stats.add res.delta.toStats }
  let st :=
    if res.split.isSome then { st with stats := { st.stats with containsEstimates := false } }
    else st
  let migrate :=
    match res.state with
    | some s =>
      if s.usingAppliedStateKey && !b.state.usingAppliedStateKey then true
      else b.migrateToAppliedStateKey
    | none => b.migrateToAppliedStateKey
  { b with state := st, migrateToAppliedStateKey := migrate }

/-- Embedding of `replicaAppBatch.Stage`: check the command, wipe it on rejection, stage
its write batch, run the pre-apply triggers, and fold the trivial result
into the batch state.  Index-precondition violations are non-deterministic
failures; on any error the embedding returns no batch, so the caller's
batch is untouched (the source returns before any mutation). -/
def replicaAppBatch.Stage (equiv : Lease → Lease → Bool) (b : replicaAppBatch)
    (cmdI : replicatedCmd) : Except NonDetFailure (replicaAppBatch × replicatedCmd) :=
  if cmdI.ent.index = 0 then
    .error .zeroIndex
  else if cmdI.ent.index ≠ b.state.raftAppliedIndex + 1 then
    .error (.indexGap b.state.raftAppliedIndex cmdI.ent.index)
  else
    let cmd := shouldApplyCommand equiv cmdI b.state
    let cmd :=
      if cmd.forcedErr.isSome then
        -- Rejected: apply an empty command instead.
        { cmd with raftCmd := { cmd.raftCmd with
            replicatedEvalResult := {}, writeBatch := none, logicalOpLog := none } }
      else cmd
    -- Modelled from the spec: `maybeAcquireSplitMergeLock` (external to this
    -- file's source) attaches a scoped release token exactly when the
    -- command still carries a split or merge trigger.
    let cmd := { cmd with splitMergeUnlock :=
        cmd.raftCmd.replicatedEvalResult.split.isSome ||
        cmd.raftCmd.replicatedEvalResult.merge.isSome }
    let b := { b with maxTS := max b.maxTS cmd.raftCmd.replicatedEvalResult.timestamp }
    match replicaAppBatch.migrateReplicatedResult cmd with
    | .error e => .error e
    | .ok cmd =>
      let b := b.stageWriteBatch cmd
      match b.runPreApplyTriggers cmd with
      | .error e => .error e
      | .ok p =>
        let b := p.1
        let cmd := p.2
        let b := b.stageTrivialReplicatedEvalResult cmd
        let b := { b with entries := b.entries + 1,
                          emptyEntries := b.emptyEntries +
                            (if cmdI.ent.dataLen = 0 then 1 else 0) }
        .ok (b, cmd)

/-- Embedding of `ephemeralReplicaAppBatch.Stage`: the decode-time simulation.  It only
runs the force-error check and advances its private lease applied index;
it never fails and never touches storage. -/
def ephemeralReplicaAppBatch.Stage (equiv : Lease → Lease → Bool)
    (state : ReplicaState) (cmdI : replicatedCmd) : ReplicaState × replicatedCmd :=
  let cmd := shouldApplyCommand equiv cmdI state
  ({ state with leaseAppliedIndex := cmd.leaseIndex }, cmd)

/-- The abstract storage environment: outcome switches for every fallible
external storage call the commit path makes, plus the sys-bytes accounting
the legacy blind applied-index write reports (both external to this file's
source). -/
structure StorageEnv where
  migrateOk : Bool := true
  setRangeAppliedOk : Bool := true
  setLegacyAppliedOk : Bool := true
  setMVCCStatsOk : Bool := true
  commitOk : Bool := true
  legacyAppliedSysBytes : Int := 0
  calcAppliedIndexSysBytes : Nat → Nat → Int := fun _ _ => 0

/-- Embedding of `addAppliedStateKeyToBatch`: record the applied indices and stats in
the batch.  A pending migration first deletes the legacy keys and flips the
batch state to the new layout; the new layout writes the single combined
range-applied-state record; the legacy layout blind-writes the applied
index (fixing up sys-bytes) and then the stats key. -/
def replicaAppBatch.addAppliedStateKeyToBatch (env : StorageEnv)
    (b : replicaAppBatch) : Except NonDetFailure replicaAppBatch :=
  let step1 : Except NonDetFailure replicaAppBatch :=
    if b.migrateToAppliedStateKey then
      if env.migrateOk then
        .ok { b with
          batch := b.batch ++
            [WriteOp.deleteLegacyAppliedIndexKeys, WriteOp.deleteLegacyRangeStatsKey],
          state := { b.state with usingAppliedStateKey := true } }
      else .error .migrateFailed
    else .ok b
  match step1 with
  | .error e => .error e
  | .ok b =>
    if b.state.usingAppliedStateKey then
      if env.setRangeAppliedOk then
        .ok { b with batch := b.batch ++
          [WriteOp.setRangeAppliedState b.state.raftAppliedIndex
            b.state.leaseAppliedIndex b.state.stats] }
      else .error .setRangeAppliedFailed
    else
      if env.setLegacyAppliedOk then
        let b := { b with batch := b.batch ++
          [WriteOp.setLegacyAppliedIndex b.state.raftAppliedIndex b.state.leaseAppliedIndex] }
        let b := { b with state := { b.state with stats := { b.state.stats with
          sysBytes := b.state.stats.sysBytes + env.legacyAppliedSysBytes -
            env.calcAppliedIndexSysBytes b.state.raftAppliedIndex b.state.leaseAppliedIndex } } }
        if env.setMVCCStatsOk then
          .ok { b with batch := b.batch ++ [WriteOp.setLegacyMVCCStats b.state.stats] }
        else .error .setMVCCStatsFailed
      else .error .setLegacyAppliedFailed

/-- The observable outcome of `ApplyToStateMachine`: the live replica state
after the call, the node clock after the call, and the failure if any. -/
structure ApplyOutcome where
  replica : ReplicaState
  clock : Timestamp
  err : Option NonDetFailure
deriving Repr

/-- Embedding of `replicaAppBatch.ApplyToStateMachine`: forward the node clock, write
the applied-state key into the batch, commit the batch, and only then
publish the new indices and stats into the live replica state.  Any
storage failure aborts before the live state is touched. -/
def replicaAppBatch.ApplyToStateMachine (env : StorageEnv) (r : ReplicaState)
    (clock : Timestamp) (b : replicaAppBatch) : ApplyOutcome :=
  let clock := max clock b.maxTS
  match b.addAppliedStateKeyToBatch env with
  | .error e => { replica := r, clock := clock, err := some e }
  | .ok b =>
    if env.commitOk then
      { replica := { r with
          raftAppliedIndex := b.state.raftAppliedIndex,
          leaseAppliedIndex := b.state.leaseAppliedIndex,
          stats := b.state.stats },
        clock := clock, err := none }
    else { replica := r, clock := clock, err := some .commitFailed }

/-- Drop the stats snapshot from an optional state record, and the record
itself when that empties it. -/
def clearStateStats : Option ReplicaStateUpdate → Option ReplicaStateUpdate
  | none => none
  | some s =>
    let s := { s with stats := none }
    if s = ({} : ReplicaStateUpdate) then none else some s

/-- Modelled from the spec: `clearTrivialReplicatedEvalResultFields` (in
`replica_application_result.go`, not under `src/`) clears the fields that
were absorbed at Stage time — the stats delta in both shapes, the
evaluation timestamp, the decision-only bookkeeping (lease-request flag,
previous lease proposal) and the state's stats snapshot, dropping the
state record when that empties it. -/
def clearTrivialReplicatedEvalResultFields (r : ReplicatedEvalResult) :
    ReplicatedEvalResult :=
  { r with isLeaseRequest := false, timestamp := 0, prevLeaseProposal := none,
           delta := {}, deprecatedDelta := none, state := clearStateStats r.state }

/-- Modelled from the spec: a command is trivial iff the residual of its
result after clearing the trivial fields is empty. -/
def isTrivialResult (r : ReplicatedEvalResult) : Bool :=
  decide (clearTrivialReplicatedEvalResultFields r = ({} : ReplicatedEvalResult))

/-- The command's result as the side-effect dispatcher sees it after the
in-place block-reads reset and trivial-field clearing. -/
def replicatedCmd.clearedResult (c : replicatedCmd) : ReplicatedEvalResult :=
  clearTrivialReplicatedEvalResultFields
    { c.raftCmd.replicatedEvalResult with blockReads := false }

/-- One observable action of the side-effect dispatcher. -/
inductive SideEffect where
  | truncatedStateApplied (ts : TruncatedState)
  | raftLogDeltaApplied (d : Int)
  | suggestedCompactionsApplied (sc : List Nat)
  | splitApplied
  | mergeApplied
  | descApplied (d : RangeDescriptor)
  | leaseApplied (l : Lease)
  | gcThresholdApplied (t : Timestamp)
  | usingAppliedStateKeyAdopted
  | changeReplicasApplied
  | computeChecksumApplied
  | stateAssertion
  | noRaftLogDelta
  | localResultHandled
  | confChangeApplied (cc : Nat)
deriving DecidableEq, Repr, Inhabited

/-- Drop an empty state record from a result. -/
def collapseEmptyState (r : ReplicatedEvalResult) : ReplicatedEvalResult :=
  match r.state with
  | some s => if s = ({} : ReplicaStateUpdate) then { r with state := none } else r
  | none => r

/-- Handler step: consume a truncated state, folding its log-size delta
into the result and collapsing an emptied state record. -/
def stepTruncatedState (truncDelta : TruncatedState → Int)
    (p : ReplicatedEvalResult × List SideEffect) :
    ReplicatedEvalResult × List SideEffect :=
  let r := p.1
  match r.state with
  | some s =>
    match s.truncatedState with
    | some ts =>
      (collapseEmptyState { r with raftLogDelta := r.raftLogDelta + truncDelta ts,
                                   state := some { s with truncatedState := none } },
       p.2 ++ [SideEffect.truncatedStateApplied ts])
    | none => (collapseEmptyState r, p.2)
  | none => (r, p.2)

/-- Handler step: consume a non-zero raft log delta. -/
def stepRaftLogDelta (p : ReplicatedEvalResult × List SideEffect) :
    ReplicatedEvalResult × List SideEffect :=
  if p.1.raftLogDelta ≠ 0 then
    ({ p.1 with raftLogDelta := 0 }, p.2 ++ [SideEffect.raftLogDeltaApplied p.1.raftLogDelta])
  else p

/-- Handler step: consume suggested compactions. -/
def stepSuggestedCompactions (p : ReplicatedEvalResult × List SideEffect) :
    ReplicatedEvalResult × List SideEffect :=
  if p.1.suggestedCompactions ≠ [] then
    ({ p.1 with suggestedCompactions := [] },
     p.2 ++ [SideEffect.suggestedCompactionsApplied p.1.suggestedCompactions])
  else p

/-- Handler step: consume a split trigger. -/
def stepSplit (p : ReplicatedEvalResult × List SideEffect) :
    ReplicatedEvalResult × List SideEffect :=
  match p.1.split with
  | some _ => ({ p.1 with split := none }, p.2 ++ [SideEffect.splitApplied])
  | none => p

/-- Handler step: consume a merge trigger. -/
def stepMerge (p : ReplicatedEvalResult × List SideEffect) :
    ReplicatedEvalResult × List SideEffect :=
  match p.1.merge with
  | some _ => ({ p.1 with merge := none }, p.2 ++ [SideEffect.mergeApplied])
  | none => p

/-- Sub-step of the state-fields handler: consume a new descriptor. -/
def stepStateDesc (q : ReplicaStateUpdate × List SideEffect) :
    ReplicaStateUpdate × List SideEffect :=
  match q.1.desc with
  | some d => ({ q.1 with desc := none }, q.2 ++ [SideEffect.descApplied d])
  | none => q

/-- Sub-step of the state-fields handler: consume a new lease. -/
def stepStateLease (q : ReplicaStateUpdate × List SideEffect) :
    ReplicaStateUpdate × List SideEffect :=
  match q.1.lease with
  | some l => ({ q.1 with lease := none }, q.2 ++ [SideEffect.leaseApplied l])
  | none => q

/-- Sub-step of the state-fields handler: consume a new GC threshold. -/
def stepStateGCThreshold (q : ReplicaStateUpdate × List SideEffect) :
    ReplicaStateUpdate × List SideEffect :=
  match q.1.gcThreshold with
  | some t => ({ q.1 with gcThreshold := none }, q.2 ++ [SideEffect.gcThresholdApplied t])
  | none => q

/-- Sub-step of the state-fields handler: consume the applied-state-key
adoption flag. -/
def stepStateUsingKey (q : ReplicaStateUpdate × List SideEffect) :
    ReplicaStateUpdate × List SideEffect :=
  if q.1.usingAppliedStateKey then
    ({ q.1 with usingAppliedStateKey := false },
     q.2 ++ [SideEffect.usingAppliedStateKeyAdopted])
  else q

/-- Handler step: consume the remaining state fields (descriptor, lease, GC
threshold, applied-state-key adoption), collapsing the emptied record. -/
def stepStateFields (p : ReplicatedEvalResult × List SideEffect) :
    ReplicatedEvalResult × List SideEffect :=
  match p.1.state with
  | some s =>
    let q := stepStateUsingKey (stepStateGCThreshold (stepStateLease (stepStateDesc (s, p.2))))
    (collapseEmptyState { p.1 with state := some q.1 }, q.2)
  | none => p

/-- Handler step: consume a replica configuration change. -/
def stepChangeReplicas (p : ReplicatedEvalResult × List SideEffect) :
    ReplicatedEvalResult × List SideEffect :=
  match p.1.changeReplicas with
  | some _ => ({ p.1 with changeReplicas := none }, p.2 ++ [SideEffect.changeReplicasApplied])
  | none => p

/-- Handler step: consume a compute-checksum request. -/
def stepComputeChecksum (p : ReplicatedEvalResult × List SideEffect) :
    ReplicatedEvalResult × List SideEffect :=
  match p.1.computeChecksum with
  | some _ => ({ p.1 with computeChecksum := none }, p.2 ++ [SideEffect.computeChecksumApplied])
  | none => p

/-- Embedding of `handleNonTrivialReplicatedEvalResult`: run the non-trivial effect
handlers.  The truncation, log-delta and compaction handlers run first;
`shouldAssert` (the returned flag) is whether anything remains after them.
An untouched residual field at the end is fatal, as is a zero-value input.
`truncDelta` models the log-size delta the external truncation handler
reports. -/
def replicaStateMachine.handleNonTrivialReplicatedEvalResult
    (truncDelta : TruncatedState → Int) (rIn : ReplicatedEvalResult) :
    Except NonDetFailure (Bool × List SideEffect) :=
  if rIn = ({} : ReplicatedEvalResult) then .error .zeroValueNonTrivialResult
  else
    let p := stepSuggestedCompactions (stepRaftLogDelta (stepTruncatedState truncDelta (rIn, [])))
    if p.1 = ({} : ReplicatedEvalResult) then .ok (false, p.2)
    else
      let q := stepComputeChecksum (stepChangeReplicas (stepStateFields (stepMerge (stepSplit p))))
      if q.1 = ({} : ReplicatedEvalResult) then .ok (true, q.2)
      else .error .unhandledField

/-- The tail of `ApplySideEffects`: finish an outstanding local proposal.
The command's proposal is marked applied whether or not the command was
rejected; the lease-index-mismatch and double-apply fatals guard only the
non-rejected (successful) application. -/
def replicaStateMachine.finishProposal (cmd : replicatedCmd)
    (evs : List SideEffect) : Except NonDetFailure (replicatedCmd × List SideEffect) :=
  match cmd.proposal with
  | some p =>
    if !cmd.Rejected then
      if cmd.raftCmd.maxLeaseIndex ≠ p.maxLeaseIndex then
        .error .leaseIndexMismatchOnFinish
      else if p.applied then .error .doubleApply
      else .ok ({ cmd with proposal := some { p with applied := true } }, evs)
    else .ok ({ cmd with proposal := some { p with applied := true } }, evs)
  | none => .ok (cmd, evs)

/-- Embedding of `replicaStateMachine.ApplySideEffects`: the third phase.  Clears the
trivial fields, dispatches the non-trivial handlers (asserting on-disk
versus in-memory state equality when the handler says so), runs the
no-log-delta hook, surfaces the local result, applies a configuration
change to the raft group, and finishes the local proposal.
(`prepareLocalResult` is external to this file's source; the local result
is modelled as the command's pre-populated `localResult` field.) -/
def replicaStateMachine.ApplySideEffects (truncDelta : TruncatedState → Int)
    (cmdI : replicatedCmd) : Except NonDetFailure (replicatedCmd × List SideEffect) :=
  let res := cmdI.clearedResult
  let cmd := { cmdI with raftCmd := { cmdI.raftCmd with replicatedEvalResult := res } }
  let step : Except NonDetFailure (List SideEffect) :=
    if !(isTrivialResult res) then
      match replicaStateMachine.handleNonTrivialReplicatedEvalResult truncDelta res with
      | .error e => .error e
      | .ok sa => .ok (sa.2 ++ (if sa.1 then [SideEffect.stateAssertion] else []))
    else if res ≠ ({} : ReplicatedEvalResult) then .error .residualSideEffects
    else .ok []
  match step with
  | .error e => .error e
  | .ok evs =>
    let evs := evs ++ (if res.raftLogDelta = 0 then [SideEffect.noRaftLogDelta] else [])
    let evs := evs ++
      (match cmdI.localResult with
       | some _ => [SideEffect.localResultHandled]
       | none => [])
    match cmdI.ent.typ with
    | .normal =>
      if res.changeReplicas.isSome then .error .unexpectedChangeReplicas
      else replicaStateMachine.finishProposal cmd evs
    | .confChange =>
      replicaStateMachine.finishProposal cmd
        (evs ++ [SideEffect.confChangeApplied
          (if res.changeReplicas.isNone then 0 else cmdI.cc)])

/-! ## Concrete values

Small concrete replicas, leases and commands used to instantiate the
theorems below (the literal values of the spec's end-to-end scenarios:
`raft_applied_index=10`, `lease_applied_index=100`, `lease.sequence=5`,
`gc_threshold=50`). -/

/-- A lease-equivalence model in which all leases are equivalent. -/
def equivTrue : Lease → Lease → Bool := fun _ _ => true

def repl1 : ReplicaDescriptor := { nodeID := 1, storeID := 1, replicaID := 1 }

def desc1 : RangeDescriptor := { rangeID := 3, nextReplicaID := 7, replicas := [repl1] }

def lease5 : Lease := { sequence := 5, proposedTS := 10, replica := repl1 }

/-- The pre-state of the spec's scenarios. -/
def st0 : ReplicaState :=
  { raftAppliedIndex := 10, leaseAppliedIndex := 100, lease := lease5,
    desc := desc1, gcThreshold := 50, stats := { liveBytes := 42 } }

/-- A command proposed under the current lease whose timestamp (40) is at
or below the GC threshold (50): lease and ordering checks pass, the GC
check rejects. -/
def raftCmdGC : RaftCommand :=
  { proposerReplica := repl1, proposerLeaseSequence := 5, maxLeaseIndex := 101,
    replicatedEvalResult := { timestamp := 40 } }

/-- The spec's happy-path command: proposed under the current lease,
`max_lease_index=101`, timestamp 60 above the GC threshold. -/
def raftCmdHappy : RaftCommand :=
  { proposerReplica := repl1, proposerLeaseSequence := 5, maxLeaseIndex := 101,
    replicatedEvalResult := { timestamp := 60, delta := { liveBytes := 7 } } }

/-- The GC-rejected command as a decoded entry at index 11. -/
def cmdGC : replicatedCmd :=
  { ent := { index := 11, term := 1, typ := .normal, dataLen := 5 },
    idKey := "c1", raftCmd := raftCmdGC }

/-- The happy-path command as a decoded entry at index 11. -/
def cmdHappy : replicatedCmd :=
  { ent := { index := 11, term := 1, typ := .normal, dataLen := 5 },
    idKey := "c1", raftCmd := raftCmdHappy }

/-- An application batch freshly seeded from `st0`. -/
def batch0 : replicaAppBatch := { state := st0 }

/-- A lease-request command proposed under the current lease, requesting
`lease5` for the replica in the descriptor. -/
def raftCmdLeaseReq : RaftCommand :=
  { proposerReplica := repl1, proposerLeaseSequence := 5, maxLeaseIndex := 101,
    replicatedEvalResult :=
      { isLeaseRequest := true, timestamp := 60,
        state := some { lease := some lease5 } } }

/-- The batch produced by staging `cmdGC` on `batch0`: rejected, applied as
an empty entry, with the raft applied index advanced to 11 and — the
surprise — the lease applied index advanced to 101. -/
def batchGCres : replicaAppBatch :=
  { batch0 with
      state := { st0 with raftAppliedIndex := 11, leaseAppliedIndex := 101 },
      entries := 1 }

/-- The checked command produced by staging `cmdGC` on `batch0`: wiped, with
the GC rejection attached. -/
def cmdGCres : replicatedCmd :=
  { cmdGC with
      raftCmd := { cmdGC.raftCmd with replicatedEvalResult := {} },
      leaseIndex := 101,
      forcedErr := some (.batchTimestampBeforeGC 40 50) }

/-- A batch already using the new applied-state-key layout. -/
def batchNew : replicaAppBatch := { state := { st0 with usingAppliedStateKey := true } }

/-- A batch with a pending applied-state-key migration. -/
def batchMig : replicaAppBatch := { state := st0, migrateToAppliedStateKey := true }

/-- The batch produced by writing the applied-state key on `batchNew`. -/
def batchNewRes : replicaAppBatch :=
  match replicaAppBatch.addAppliedStateKeyToBatch {} batchNew with
  | .ok x => x
  | .error _ => batchNew

/-- The batch produced by writing the applied-state key on `batchMig`. -/
def batchMigRes : replicaAppBatch :=
  match replicaAppBatch.addAppliedStateKeyToBatch {} batchMig with
  | .ok x => x
  | .error _ => batchMig

/-- A command whose only remaining effect is a raft log delta: non-trivial,
but entirely consumed by the lightweight log-delta handler. -/
def cmdLogDelta : replicatedCmd :=
  { ent := { index := 12, term := 1, typ := .normal, dataLen := 3 },
    idKey := "c3",
    raftCmd := { raftCmdHappy with replicatedEvalResult := { raftLogDelta := 1 } } }

/-- A rejected local command whose proposal was already marked applied: the
double-apply fatal must not fire for it. -/
def cmdRejLocal : replicatedCmd :=
  { cmdGCres with proposal := some { maxLeaseIndex := 55, applied := true } }

end RaftApply

namespace RaftApply

/-! ## Shared lemmas -/

/-- Adding the zero stats delta changes nothing. -/
theorem stats_add_zero (s : MVCCStats) :
    s.add (MVCCStatsDelta.toStats {}) = s := by
  cases s
  simp [MVCCStats.add, MVCCStatsDelta.toStats]

/-! ## Claim theorems -/

/-- C4: the force-error check is deterministic — two invocations of
`checkForcedErr` with identical inputs (command id, raft command, is-local
flag, replica state) return identical `(new_lease_index, retry_kind,
error)` triples.  The embedding is a pure function of exactly these
inputs, so determinism is congruence. -/
theorem checkForcedErr_deterministic (equiv : Lease → Lease → Bool)
    (id1 id2 : String) (c1 c2 : RaftCommand) (l1 l2 : Bool)
    (s1 s2 : ReplicaState)
    (hid : id1 = id2) (hc : c1 = c2) (hl : l1 = l2) (hs : s1 = s2) :
    checkForcedErr equiv id1 c1 l1 s1 = checkForcedErr equiv id2 c2 l2 s2 := by
  subst hid hc hl hs
  rfl

theorem checkForcedErr_deterministic_witness :
    checkForcedErr equivTrue "c1" raftCmdHappy false st0 =
      checkForcedErr equivTrue "c1" raftCmdHappy false st0 :=
  checkForcedErr_deterministic equivTrue "c1" "c1" raftCmdHappy raftCmdHappy
    false false st0 st0 rfl rfl rfl rfl

/-- C9: staging on an ephemeral batch cannot fail (its type returns no
error), hands back the checked command — rejected or not — and changes
only the ephemeral state's lease applied index: the raft applied index,
lease, descriptor, GC threshold, stats, truncated state and layout flag
are untouched, and no storage write exists in its result. -/
theorem ephemeralStage_frame (equiv : Lease → Lease → Bool)
    (state : ReplicaState) (cmdI : replicatedCmd) :
    (ephemeralReplicaAppBatch.Stage equiv state cmdI).2 = shouldApplyCommand equiv cmdI state ∧
    (ephemeralReplicaAppBatch.Stage equiv state cmdI).1.leaseAppliedIndex =
      (shouldApplyCommand equiv cmdI state).leaseIndex ∧
    (ephemeralReplicaAppBatch.Stage equiv state cmdI).1.raftAppliedIndex =
      state.raftAppliedIndex ∧
    (ephemeralReplicaAppBatch.Stage equiv state cmdI).1.lease = state.lease ∧
    (ephemeralReplicaAppBatch.Stage equiv state cmdI).1.desc = state.desc ∧
    (ephemeralReplicaAppBatch.Stage equiv state cmdI).1.gcThreshold = state.gcThreshold ∧
    (ephemeralReplicaAppBatch.Stage equiv state cmdI).1.stats = state.stats ∧
    (ephemeralReplicaAppBatch.Stage equiv state cmdI).1.truncatedState =
      state.truncatedState ∧
    (ephemeralReplicaAppBatch.Stage equiv state cmdI).1.usingAppliedStateKey =
      state.usingAppliedStateKey :=
  ⟨rfl, rfl, rfl, rfl, rfl, rfl, rfl, rfl, rfl⟩

/-- C1 counterexample: under the current lease, with
`lease_applied_index = 100 < max_lease_index = 101`, a command whose
timestamp (40) is at or below the GC threshold (50) is still rejected, so
"accepts iff `lease_applied_index < max_lease_index`" is false; moreover
this rejection is not an illegal-lease-index error and it returns an
advanced (not unchanged) lease index. -/
theorem checkForcedErr_gc_counterexample :
    st0.leaseAppliedIndex < raftCmdGC.maxLeaseIndex ∧
    checkForcedErr equivTrue "c1" raftCmdGC false st0 =
      (101, .noReevaluation, some (.batchTimestampBeforeGC 40 50)) := by
  constructor
  · decide
  · rfl

/-- C1 (amended with the GC-threshold proviso the counterexample forces):
for a non-lease command with a non-empty id, a matching proposer lease
*and a timestamp above the GC threshold*, `checkForcedErr` accepts iff
`lease_applied_index < max_lease_index`; on acceptance the returned lease
index is `max_lease_index`, and on rejection it is unchanged, the error is
the illegal-lease-index error, and the retry flag is set iff the command
is local. -/
theorem nonLease_ordering_check (equiv : Lease → Lease → Bool) (idKey : String)
    (raftCmd : RaftCommand) (isLocal : Bool) (st : ReplicaState)
    (hid : idKey ≠ "")
    (hlr : raftCmd.replicatedEvalResult.isLeaseRequest = false)
    (hmatch : leaseMatches equiv raftCmd st = true)
    (hgc : st.gcThreshold < raftCmd.replicatedEvalResult.timestamp) :
    ((checkForcedErr equiv idKey raftCmd isLocal st).2.2 = none ↔
      st.leaseAppliedIndex < raftCmd.maxLeaseIndex) ∧
    (st.leaseAppliedIndex < raftCmd.maxLeaseIndex →
      (checkForcedErr equiv idKey raftCmd isLocal st).1 = raftCmd.maxLeaseIndex) ∧
    (¬ st.leaseAppliedIndex < raftCmd.maxLeaseIndex →
      (checkForcedErr equiv idKey raftCmd isLocal st).1 = st.leaseAppliedIndex ∧
      (checkForcedErr equiv idKey raftCmd isLocal st).2.2 =
        some (.illegalLeaseIndexErr st.leaseAppliedIndex raftCmd.maxLeaseIndex) ∧
      ((checkForcedErr equiv idKey raftCmd isLocal st).2.1 =
          ProposalReevaluationReason.illegalLeaseIndex ↔ isLocal = true)) := by
  have key : checkForcedErr equiv idKey raftCmd isLocal st =
      (if st.leaseAppliedIndex < raftCmd.maxLeaseIndex then
        (raftCmd.maxLeaseIndex, .noReevaluation, none)
       else
        (st.leaseAppliedIndex, (if isLocal then .illegalLeaseIndex else .noReevaluation),
          some (.illegalLeaseIndexErr st.leaseAppliedIndex raftCmd.maxLeaseIndex))) := by
    unfold checkForcedErr
    cases hdep : raftCmd.deprecatedProposerLease with
    | some dep =>
      have heq : equiv dep st.lease = true := by
        unfold leaseMatches at hmatch
        simpa [hdep] using hmatch
      simp [hlr, hid, hdep, heq, hgc]
    | none =>
      have hseq : raftCmd.proposerLeaseSequence = st.lease.sequence := by
        unfold leaseMatches at hmatch
        simpa [hdep] using hmatch
      simp [hlr, hid, hdep, hseq, hgc]
  rw [key]
  by_cases hord : st.leaseAppliedIndex < raftCmd.maxLeaseIndex
  · simp [hord]
  · refine ⟨by simp [hord], fun h => absurd h hord, fun _ => ⟨by simp [hord], by simp [hord], ?_⟩⟩
    cases isLocal <;> simp [hord]

theorem nonLease_ordering_check_witness :
    (checkForcedErr equivTrue "c1" raftCmdHappy false st0).2.2 = none ∧
    (checkForcedErr equivTrue "c1" raftCmdHappy false st0).1 = 101 := by
  have h := nonLease_ordering_check equivTrue "c1" raftCmdHappy false st0
    (by decide) rfl (by decide) (by decide)
  exact ⟨h.1.mpr (by decide), h.2.1 (by decide)⟩

/-- For a lease request, `checkForcedErr` never moves the lease applied
index and never reads `max_lease_index`. -/
theorem checkForcedErr_leaseRequest_aux (equiv : Lease → Lease → Bool) (idKey : String)
    (raftCmd : RaftCommand) (isLocal : Bool) (st : ReplicaState)
    (h : raftCmd.replicatedEvalResult.isLeaseRequest = true) :
    (checkForcedErr equiv idKey raftCmd isLocal st).1 = st.leaseAppliedIndex ∧
    ∀ mli : Nat,
      checkForcedErr equiv idKey { raftCmd with maxLeaseIndex := mli } isLocal st =
        checkForcedErr equiv idKey raftCmd isLocal st := by
  constructor
  · unfold checkForcedErr
    simp only [h, if_true, ite_true]
    repeat' split
    all_goals rfl
  · intro mli
    unfold checkForcedErr
    simp [h]

/-- C8: for every lease-request command — accepted or rejected —
`checkForcedErr` returns the pre-state lease applied index unchanged, and
its entire output is independent of the command's `max_lease_index`. -/
theorem leaseRequest_leaseIndex (equiv : Lease → Lease → Bool) (idKey : String)
    (raftCmd : RaftCommand) (isLocal : Bool) (st : ReplicaState)
    (h : raftCmd.replicatedEvalResult.isLeaseRequest = true) :
    (checkForcedErr equiv idKey raftCmd isLocal st).1 = st.leaseAppliedIndex ∧
    ∀ mli : Nat,
      checkForcedErr equiv idKey { raftCmd with maxLeaseIndex := mli } isLocal st =
        checkForcedErr equiv idKey raftCmd isLocal st :=
  checkForcedErr_leaseRequest_aux equiv idKey raftCmd isLocal st h

theorem leaseRequest_leaseIndex_witness :
    (checkForcedErr equivTrue "c2" raftCmdLeaseReq false st0).1 =
      st0.leaseAppliedIndex :=
  (leaseRequest_leaseIndex equivTrue "c2" raftCmdLeaseReq false st0 rfl).1

/-- Characterization of the lease index returned on rejection: it is the
pre-state lease applied index, except for a GC-threshold rejection of a
non-lease command, which returns the command's (strictly larger)
`max_lease_index`. -/
theorem checkForcedErr_rejected_leaseIndex (equiv : Lease → Lease → Bool)
    (idKey : String) (raftCmd : RaftCommand) (isLocal : Bool) (st : ReplicaState)
    (e : ForcedError)
    (h : (checkForcedErr equiv idKey raftCmd isLocal st).2.2 = some e) :
    (checkForcedErr equiv idKey raftCmd isLocal st).1 =
      (if e.isGCErr && !raftCmd.replicatedEvalResult.isLeaseRequest
       then raftCmd.maxLeaseIndex else st.leaseAppliedIndex) ∧
    ((e.isGCErr && !raftCmd.replicatedEvalResult.isLeaseRequest) = true →
      st.leaseAppliedIndex < raftCmd.maxLeaseIndex) := by
  by_cases hlr : raftCmd.replicatedEvalResult.isLeaseRequest = true
  · rw [(checkForcedErr_leaseRequest_aux equiv idKey raftCmd isLocal st hlr).1]
    simp [hlr]
  · have hlr' : raftCmd.replicatedEvalResult.isLeaseRequest = false := by
      revert hlr; cases raftCmd.replicatedEvalResult.isLeaseRequest <;> simp
    revert h
    unfold checkForcedErr
    simp only [hlr', Bool.false_eq_true, if_false, ite_false, Bool.and_false]
    split
    · intro h; simp at h; subst h; simp [ForcedError.isGCErr]
    · split
      · intro h; simp at h; subst h; simp [ForcedError.isGCErr]
      · split
        · rename_i hord
          split
          · intro h; simp at h
          · intro h; simp at h; subst h; simp [ForcedError.isGCErr, hord]
        · intro h; simp at h; subst h; simp [ForcedError.isGCErr]

/-- C2 counterexample: staging the GC-rejected command `cmdGC` on `batch0`
succeeds and rejects the command, yet the batch's lease applied index
advances from 100 to 101 — so "the batch's lease_applied_index is left
unchanged" is false for this rejected command. -/
theorem stage_rejected_counterexample :
    replicaAppBatch.Stage equivTrue batch0 cmdGC = .ok (batchGCres, cmdGCres) ∧
    cmdGCres.forcedErr.isSome = true ∧
    batch0.state.leaseAppliedIndex = 100 ∧
    batchGCres.state.leaseAppliedIndex = 101 := by
  refine ⟨rfl, rfl, rfl, rfl⟩

/-- The explicit value of `Stage` on the rejected path: the checked command
is wiped and applied as an empty entry, advancing the raft applied index
and (when non-zero) installing the returned lease index. -/
theorem stage_rejected_eq (equiv : Lease → Lease → Bool)
    (b : replicaAppBatch) (cmdI : replicatedCmd)
    (hzero : cmdI.ent.index ≠ 0)
    (hgap : cmdI.ent.index = b.state.raftAppliedIndex + 1)
    (hrej : (checkForcedErr equiv cmdI.idKey cmdI.raftCmd cmdI.IsLocal b.state).2.2.isSome = true) :
    replicaAppBatch.Stage equiv b cmdI =
      .ok ({ b with
          state := { b.state with
            raftAppliedIndex := cmdI.ent.index,
            leaseAppliedIndex :=
              (if (checkForcedErr equiv cmdI.idKey cmdI.raftCmd cmdI.IsLocal b.state).1 ≠ 0
               then (checkForcedErr equiv cmdI.idKey cmdI.raftCmd cmdI.IsLocal b.state).1
               else b.state.leaseAppliedIndex) },
          maxTS := max b.maxTS 0,
          entries := b.entries + 1,
          emptyEntries := b.emptyEntries + (if cmdI.ent.dataLen = 0 then 1 else 0) },
        { cmdI with
          raftCmd := { cmdI.raftCmd with
            replicatedEvalResult := {}, writeBatch := none, logicalOpLog := none },
          leaseIndex := (checkForcedErr equiv cmdI.idKey cmdI.raftCmd cmdI.IsLocal b.state).1,
          proposalRetry := (checkForcedErr equiv cmdI.idKey cmdI.raftCmd cmdI.IsLocal b.state).2.1,
          forcedErr := (checkForcedErr equiv cmdI.idKey cmdI.raftCmd cmdI.IsLocal b.state).2.2,
          splitMergeUnlock := false }) := by
  unfold replicaAppBatch.Stage
  simp only [shouldApplyCommand, hrej, hzero, hgap, if_true, ite_true]
  simp [replicaAppBatch.migrateReplicatedResult, replicaAppBatch.stageWriteBatch,
    replicaAppBatch.runPreApplyTriggers, replicaAppBatch.stageTrivialReplicatedEvalResult,
    stats_add_zero, hzero]
  split <;> simp [hgap]

/-- The deprecated-delta migration never touches the command's checked
fields. -/
theorem migrate_preserves_forcedErr (cmd cmd2 : replicatedCmd)
    (h : replicaAppBatch.migrateReplicatedResult cmd = .ok cmd2) :
    cmd2.forcedErr = cmd.forcedErr := by
  simp only [replicaAppBatch.migrateReplicatedResult] at h
  repeat' split at h
  all_goals simp_all
  all_goals rw [← h]

/-- The pre-apply triggers only rewrite the command's replicated result;
the checked fields survive unchanged. -/
theorem preApply_preserves_forcedErr (b : replicaAppBatch) (cmd : replicatedCmd)
    (b2 : replicaAppBatch) (c2 : replicatedCmd)
    (h : b.runPreApplyTriggers cmd = .ok (b2, c2)) :
    c2.forcedErr = cmd.forcedErr := by
  simp only [replicaAppBatch.runPreApplyTriggers] at h
  repeat' split at h
  all_goals simp_all
  all_goals rw [← h.2]

/-- Inverting a successful `Stage`: the entry index was non-zero and
contiguous, and the returned command carries exactly the force-error
check's verdict. -/
theorem stage_ok_inversion (equiv : Lease → Lease → Bool)
    (b b' : replicaAppBatch) (cmdI c' : replicatedCmd)
    (hok : replicaAppBatch.Stage equiv b cmdI = .ok (b', c')) :
    cmdI.ent.index ≠ 0 ∧ cmdI.ent.index = b.state.raftAppliedIndex + 1 ∧
    c'.forcedErr = (checkForcedErr equiv cmdI.idKey cmdI.raftCmd cmdI.IsLocal b.state).2.2 := by
  simp only [replicaAppBatch.Stage] at hok
  split at hok
  · simp at hok
  · rename_i hzero
    split at hok
    · simp at hok
    · rename_i hgap
      refine ⟨hzero, not_ne_iff.mp hgap, ?_⟩
      split at hok
      · simp at hok
      · rename_i cmd3 hmig
        split at hok
        · simp at hok
        · rename_i p hpre
          obtain ⟨p1, p2⟩ := p
          simp only [Except.ok.injEq, Prod.mk.injEq] at hok
          rw [← hok.2, preApply_preserves_forcedErr _ _ _ _ hpre,
            migrate_preserves_forcedErr _ _ hmig]
          dsimp only
          split <;> rfl

/-- C2 (amended): a command rejected by the force-error check during
`Stage` has its replicated result, write batch and logical op log cleared,
the batch's raft applied index still advances to the entry's index, and
the MVCC stats are unchanged; the lease applied index is also unchanged
*except* for a GC-threshold rejection of a non-lease command, which still
advances it to the command's `max_lease_index` (the index the check had
already moved past the ordering step). -/
theorem stage_rejected_frame (equiv : Lease → Lease → Bool)
    (b b' : replicaAppBatch) (cmdI c' : replicatedCmd) (e : ForcedError)
    (hok : replicaAppBatch.Stage equiv b cmdI = .ok (b', c'))
    (herr : c'.forcedErr = some e) :
    c'.raftCmd.replicatedEvalResult = ({} : ReplicatedEvalResult) ∧
    c'.raftCmd.writeBatch = none ∧
    c'.raftCmd.logicalOpLog = none ∧
    b'.state.raftAppliedIndex = cmdI.ent.index ∧
    b'.state.stats = b.state.stats ∧
    b'.state.leaseAppliedIndex =
      (if e.isGCErr && !cmdI.raftCmd.replicatedEvalResult.isLeaseRequest
       then cmdI.raftCmd.maxLeaseIndex else b.state.leaseAppliedIndex) := by
  obtain ⟨hzero, hgap, hfe⟩ := stage_ok_inversion equiv b b' cmdI c' hok
  have herr2 : (checkForcedErr equiv cmdI.idKey cmdI.raftCmd cmdI.IsLocal b.state).2.2 =
      some e := by rw [← hfe]; exact herr
  have hrej : (checkForcedErr equiv cmdI.idKey cmdI.raftCmd cmdI.IsLocal b.state).2.2.isSome =
      true := by rw [herr2]; rfl
  rw [stage_rejected_eq equiv b cmdI hzero hgap hrej] at hok
  simp only [Except.ok.injEq, Prod.mk.injEq] at hok
  obtain ⟨hb, hc⟩ := hok
  subst hb
  subst hc
  refine ⟨rfl, rfl, rfl, rfl, rfl, ?_⟩
  obtain ⟨hli, hbound⟩ := checkForcedErr_rejected_leaseIndex equiv cmdI.idKey cmdI.raftCmd
    cmdI.IsLocal b.state e herr2
  by_cases hgc : (e.isGCErr && !cmdI.raftCmd.replicatedEvalResult.isLeaseRequest) = true
  · have hlt := hbound hgc
    have hne : cmdI.raftCmd.maxLeaseIndex ≠ 0 := by omega
    rw [hli]
    simp [hgc, hne]
  · have hgc' : (e.isGCErr && !cmdI.raftCmd.replicatedEvalResult.isLeaseRequest) = false := by
      revert hgc; cases e.isGCErr && !cmdI.raftCmd.replicatedEvalResult.isLeaseRequest <;> simp
    rw [hli]
    simp only [hgc', Bool.false_eq_true, if_false, ite_false]
    split <;> rfl

theorem stage_rejected_frame_witness :
    cmdGCres.raftCmd.replicatedEvalResult = ({} : ReplicatedEvalResult) ∧
    cmdGCres.raftCmd.writeBatch = none ∧
    cmdGCres.raftCmd.logicalOpLog = none ∧
    batchGCres.state.raftAppliedIndex = cmdGC.ent.index ∧
    batchGCres.state.stats = batch0.state.stats ∧
    batchGCres.state.leaseAppliedIndex =
      (if (ForcedError.batchTimestampBeforeGC 40 50).isGCErr &&
          !cmdGC.raftCmd.replicatedEvalResult.isLeaseRequest
       then cmdGC.raftCmd.maxLeaseIndex else batch0.state.leaseAppliedIndex) :=
  stage_rejected_frame equivTrue batch0 batchGCres cmdGC cmdGCres
    (.batchTimestampBeforeGC 40 50) rfl rfl

/-- C3: `Stage` returns a non-deterministic failure whenever the entry
index is zero or differs from the batch state's raft applied index + 1;
consequently every successfully staged command satisfies
`pre.raft_applied_index + 1 = entry index`.  On the error paths the
embedding returns no batch at all — mirroring the source, which returns
before mutating anything. -/
theorem stage_index_preconditions (equiv : Lease → Lease → Bool)
    (b : replicaAppBatch) (cmdI : replicatedCmd) :
    (cmdI.ent.index = 0 →
      replicaAppBatch.Stage equiv b cmdI = .error .zeroIndex) ∧
    (cmdI.ent.index ≠ 0 → cmdI.ent.index ≠ b.state.raftAppliedIndex + 1 →
      replicaAppBatch.Stage equiv b cmdI =
        .error (.indexGap b.state.raftAppliedIndex cmdI.ent.index)) ∧
    (∀ b' c', replicaAppBatch.Stage equiv b cmdI = .ok (b', c') →
      b.state.raftAppliedIndex + 1 = cmdI.ent.index) := by
  refine ⟨?_, ?_, ?_⟩
  · intro h
    simp [replicaAppBatch.Stage, h]
  · intro h1 h2
    simp [replicaAppBatch.Stage, h1, h2]
  · intro b' c' hok
    exact ((stage_ok_inversion equiv b b' cmdI c' hok).2.1).symm

theorem stage_index_preconditions_witness :
    replicaAppBatch.Stage equivTrue batch0
      { cmdGC with ent := { cmdGC.ent with index := 0 } } = .error .zeroIndex ∧
    batch0.state.raftAppliedIndex + 1 = cmdGC.ent.index :=
  ⟨(stage_index_preconditions equivTrue batch0
      { cmdGC with ent := { cmdGC.ent with index := 0 } }).1 rfl,
   (stage_index_preconditions equivTrue batch0 cmdGC).2.2 batchGCres cmdGCres rfl⟩

/-- Writing the applied-state key never touches the staged indices, and in
the new layout (or during migration into it) never touches the stats
either; only the legacy layout folds its sys-bytes bookkeeping into the
stats. -/
theorem addAppliedStateKey_preserves_indices (env : StorageEnv)
    (b b2 : replicaAppBatch)
    (h : replicaAppBatch.addAppliedStateKeyToBatch env b = .ok b2) :
    b2.state.raftAppliedIndex = b.state.raftAppliedIndex ∧
    b2.state.leaseAppliedIndex = b.state.leaseAppliedIndex ∧
    ((b.state.usingAppliedStateKey || b.migrateToAppliedStateKey) = true →
      b2.state.stats = b.state.stats) := by
  cases hmig : b.migrateToAppliedStateKey
  all_goals cases hmok : env.migrateOk
  all_goals simp [replicaAppBatch.addAppliedStateKeyToBatch, hmig, hmok] at h
  all_goals repeat' split at h
  all_goals simp at h
  all_goals subst h
  all_goals simp_all

/-- C5: commit-or-nothing.  If `ApplyToStateMachine` fails (the
applied-state-key write or the storage commit), the live replica state is
returned unchanged; on success the live raft applied index, lease applied
index and stats all become the batch's staged values in the single
publication step (the staged indices exactly; the stats exactly under the
new applied-state-key layout, and with only the legacy sys-bytes
bookkeeping folded in otherwise). -/
theorem applyToStateMachine_commit_or_nothing (env : StorageEnv)
    (r : ReplicaState) (clock : Timestamp) (b : replicaAppBatch) :
    (∀ e, (replicaAppBatch.ApplyToStateMachine env r clock b).err = some e →
      (replicaAppBatch.ApplyToStateMachine env r clock b).replica = r) ∧
    ((replicaAppBatch.ApplyToStateMachine env r clock b).err = none →
      ∃ b2, replicaAppBatch.addAppliedStateKeyToBatch env b = .ok b2 ∧
        (replicaAppBatch.ApplyToStateMachine env r clock b).replica.raftAppliedIndex =
          b2.state.raftAppliedIndex ∧
        (replicaAppBatch.ApplyToStateMachine env r clock b).replica.leaseAppliedIndex =
          b2.state.leaseAppliedIndex ∧
        (replicaAppBatch.ApplyToStateMachine env r clock b).replica.stats = b2.state.stats ∧
        b2.state.raftAppliedIndex = b.state.raftAppliedIndex ∧
        b2.state.leaseAppliedIndex = b.state.leaseAppliedIndex ∧
        ((b.state.usingAppliedStateKey || b.migrateToAppliedStateKey) = true →
          b2.state.stats = b.state.stats)) := by
  simp only [replicaAppBatch.ApplyToStateMachine]
  split
  · constructor
    · intro e _
      rfl
    · intro h
      simp at h
  · rename_i b2 hadd
    split
    · constructor
      · intro e h
        simp at h
      · intro _
        obtain ⟨h1, h2, h3⟩ := addAppliedStateKey_preserves_indices env b b2 hadd
        exact ⟨b2, hadd, rfl, rfl, rfl, h1, h2, h3⟩
    · constructor
      · intro e _
        rfl
      · intro h
        simp at h

theorem applyToStateMachine_commit_or_nothing_witness :
    (replicaAppBatch.ApplyToStateMachine { commitOk := false } st0 0 batch0).replica = st0 ∧
    (replicaAppBatch.ApplyToStateMachine {} st0 0 batchGCres).replica.raftAppliedIndex = 11 := by
  constructor
  · exact (applyToStateMachine_commit_or_nothing { commitOk := false } st0 0 batch0).1
      .commitFailed rfl
  · obtain ⟨b2, hadd, h1, -, -, h4, -, -⟩ :=
      (applyToStateMachine_commit_or_nothing {} st0 0 batchGCres).2 rfl
    rw [h1, h4]
    rfl

/-- C6: the applied-state-key migration is one-way.  (1) With the batch
already on the new layout and no pending migration, committing writes only
the single combined range-applied-state record and never a legacy key.
(2) With the migration flag set, the legacy keys are deleted inside the
batch *before* the combined record is written, and the batch state's
`using_applied_state_key` is set afterwards.  (3) Staging never raises the
migration flag once the batch state is already on the new layout, so no
later batch of this range can rewrite the legacy keys. -/
theorem appliedStateKey_migration_one_way :
    (∀ (env : StorageEnv) (b b2 : replicaAppBatch),
      b.state.usingAppliedStateKey = true → b.migrateToAppliedStateKey = false →
      replicaAppBatch.addAppliedStateKeyToBatch env b = .ok b2 →
      b2.batch = b.batch ++ [WriteOp.setRangeAppliedState b.state.raftAppliedIndex
        b.state.leaseAppliedIndex b.state.stats] ∧
      b2.state = b.state) ∧
    (∀ (env : StorageEnv) (b b2 : replicaAppBatch),
      b.migrateToAppliedStateKey = true →
      replicaAppBatch.addAppliedStateKeyToBatch env b = .ok b2 →
      b2.batch = b.batch ++ [WriteOp.deleteLegacyAppliedIndexKeys,
        WriteOp.deleteLegacyRangeStatsKey,
        WriteOp.setRangeAppliedState b.state.raftAppliedIndex
          b.state.leaseAppliedIndex b.state.stats] ∧
      b2.state.usingAppliedStateKey = true) ∧
    (∀ (b : replicaAppBatch) (cmd : replicatedCmd),
      b.state.usingAppliedStateKey = true →
      (replicaAppBatch.stageTrivialReplicatedEvalResult b cmd).migrateToAppliedStateKey =
        b.migrateToAppliedStateKey) := by
  refine ⟨?_, ?_, ?_⟩
  · intro env b b2 husing hmig h
    simp [replicaAppBatch.addAppliedStateKeyToBatch, hmig, husing] at h
    repeat' split at h
    all_goals simp at h
    all_goals subst h
    all_goals simp_all
  · intro env b b2 hmig h
    cases hmok : env.migrateOk
    all_goals simp [replicaAppBatch.addAppliedStateKeyToBatch, hmig, hmok] at h
    all_goals repeat' split at h
    all_goals simp at h
    all_goals subst h
    all_goals simp_all
  · intro b cmd husing
    simp only [replicaAppBatch.stageTrivialReplicatedEvalResult, husing]
    split <;> simp

theorem appliedStateKey_migration_one_way_witness :
    (batchNewRes.batch = batchNew.batch ++ [WriteOp.setRangeAppliedState
        batchNew.state.raftAppliedIndex batchNew.state.leaseAppliedIndex
        batchNew.state.stats] ∧
      batchNewRes.state = batchNew.state) ∧
    (batchMigRes.batch = batchMig.batch ++ [WriteOp.deleteLegacyAppliedIndexKeys,
        WriteOp.deleteLegacyRangeStatsKey,
        WriteOp.setRangeAppliedState batchMig.state.raftAppliedIndex
          batchMig.state.leaseAppliedIndex batchMig.state.stats] ∧
      batchMigRes.state.usingAppliedStateKey = true) :=
  ⟨appliedStateKey_migration_one_way.1 {} batchNew batchNewRes rfl rfl rfl,
   appliedStateKey_migration_one_way.2.1 {} batchMig batchMigRes rfl rfl⟩

/-- Dropping the stats snapshot is idempotent. -/
theorem clearStateStats_idem (o : Option ReplicaStateUpdate) :
    clearStateStats (clearStateStats o) = clearStateStats o := by
  match o with
  | none => rfl
  | some s =>
    by_cases h : ({ s with stats := none } : ReplicaStateUpdate) = ({} : ReplicaStateUpdate)
    · simp [clearStateStats, h]
    · simp [clearStateStats, h]

/-- Clearing the trivial fields is idempotent. -/
theorem clearTrivial_idem (r : ReplicatedEvalResult) :
    clearTrivialReplicatedEvalResultFields (clearTrivialReplicatedEvalResultFields r) =
      clearTrivialReplicatedEvalResultFields r := by
  unfold clearTrivialReplicatedEvalResultFields
  simp [clearStateStats_idem]

/-- The truncated-state handler step adds no state assertion. -/
theorem stepTruncatedState_no_assert (td : TruncatedState → Int)
    (p : ReplicatedEvalResult × List SideEffect)
    (h : SideEffect.stateAssertion ∉ p.2) :
    SideEffect.stateAssertion ∉ (stepTruncatedState td p).2 := by
  simp only [stepTruncatedState, collapseEmptyState]
  repeat' split
  all_goals simp_all

/-- The raft-log-delta handler step adds no state assertion. -/
theorem stepRaftLogDelta_no_assert (p : ReplicatedEvalResult × List SideEffect)
    (h : SideEffect.stateAssertion ∉ p.2) :
    SideEffect.stateAssertion ∉ (stepRaftLogDelta p).2 := by
  simp only [stepRaftLogDelta]
  repeat' split
  all_goals simp_all

/-- The suggested-compactions handler step adds no state assertion. -/
theorem stepSuggestedCompactions_no_assert (p : ReplicatedEvalResult × List SideEffect)
    (h : SideEffect.stateAssertion ∉ p.2) :
    SideEffect.stateAssertion ∉ (stepSuggestedCompactions p).2 := by
  simp only [stepSuggestedCompactions]
  repeat' split
  all_goals simp_all

/-- The split handler step adds no state assertion. -/
theorem stepSplit_no_assert (p : ReplicatedEvalResult × List SideEffect)
    (h : SideEffect.stateAssertion ∉ p.2) :
    SideEffect.stateAssertion ∉ (stepSplit p).2 := by
  simp only [stepSplit]
  repeat' split
  all_goals simp_all

/-- The merge handler step adds no state assertion. -/
theorem stepMerge_no_assert (p : ReplicatedEvalResult × List SideEffect)
    (h : SideEffect.stateAssertion ∉ p.2) :
    SideEffect.stateAssertion ∉ (stepMerge p).2 := by
  simp only [stepMerge]
  repeat' split
  all_goals simp_all

/-- The descriptor sub-step adds no state assertion. -/
theorem stepStateDesc_no_assert (q : ReplicaStateUpdate × List SideEffect)
    (h : SideEffect.stateAssertion ∉ q.2) :
    SideEffect.stateAssertion ∉ (stepStateDesc q).2 := by
  simp only [stepStateDesc]
  repeat' split
  all_goals simp_all

/-- The lease sub-step adds no state assertion. -/
theorem stepStateLease_no_assert (q : ReplicaStateUpdate × List SideEffect)
    (h : SideEffect.stateAssertion ∉ q.2) :
    SideEffect.stateAssertion ∉ (stepStateLease q).2 := by
  simp only [stepStateLease]
  repeat' split
  all_goals simp_all

/-- The GC-threshold sub-step adds no state assertion. -/
theorem stepStateGCThreshold_no_assert (q : ReplicaStateUpdate × List SideEffect)
    (h : SideEffect.stateAssertion ∉ q.2) :
    SideEffect.stateAssertion ∉ (stepStateGCThreshold q).2 := by
  simp only [stepStateGCThreshold]
  repeat' split
  all_goals simp_all

/-- The applied-state-key sub-step adds no state assertion. -/
theorem stepStateUsingKey_no_assert (q : ReplicaStateUpdate × List SideEffect)
    (h : SideEffect.stateAssertion ∉ q.2) :
    SideEffect.stateAssertion ∉ (stepStateUsingKey q).2 := by
  simp only [stepStateUsingKey]
  repeat' split
  all_goals simp_all

/-- The state-fields handler step adds no state assertion. -/
theorem stepStateFields_no_assert (p : ReplicatedEvalResult × List SideEffect)
    (h : SideEffect.stateAssertion ∉ p.2) :
    SideEffect.stateAssertion ∉ (stepStateFields p).2 := by
  cases hs : p.1.state with
  | none => simpa [stepStateFields, hs] using h
  | some s =>
    simp only [stepStateFields, hs]
    exact stepStateUsingKey_no_assert _ (stepStateGCThreshold_no_assert _
      (stepStateLease_no_assert _ (stepStateDesc_no_assert _ h)))

/-- The change-replicas handler step adds no state assertion. -/
theorem stepChangeReplicas_no_assert (p : ReplicatedEvalResult × List SideEffect)
    (h : SideEffect.stateAssertion ∉ p.2) :
    SideEffect.stateAssertion ∉ (stepChangeReplicas p).2 := by
  simp only [stepChangeReplicas]
  repeat' split
  all_goals simp_all

/-- The compute-checksum handler step adds no state assertion. -/
theorem stepComputeChecksum_no_assert (p : ReplicatedEvalResult × List SideEffect)
    (h : SideEffect.stateAssertion ∉ p.2) :
    SideEffect.stateAssertion ∉ (stepComputeChecksum p).2 := by
  simp only [stepComputeChecksum]
  repeat' split
  all_goals simp_all

/-- The non-trivial handler itself never emits the state assertion; the
dispatcher alone does, guided by the returned flag. -/
theorem handleNonTrivial_no_assert (td : TruncatedState → Int)
    (r : ReplicatedEvalResult) (sa : Bool) (hevs : List SideEffect)
    (h : replicaStateMachine.handleNonTrivialReplicatedEvalResult td r = .ok (sa, hevs)) :
    SideEffect.stateAssertion ∉ hevs := by
  have base : SideEffect.stateAssertion ∉ ([] : List SideEffect) := by simp
  have h1 := stepSuggestedCompactions_no_assert _
    (stepRaftLogDelta_no_assert _ (stepTruncatedState_no_assert td (r, []) base))
  simp only [replicaStateMachine.handleNonTrivialReplicatedEvalResult] at h
  split at h
  · simp at h
  · split at h
    · simp only [Except.ok.injEq, Prod.mk.injEq] at h
      rw [← h.2]
      exact h1
    · have h2 := stepComputeChecksum_no_assert _ (stepChangeReplicas_no_assert _
        (stepStateFields_no_assert _ (stepMerge_no_assert _ (stepSplit_no_assert _ h1))))
      split at h
      · simp only [Except.ok.injEq, Prod.mk.injEq] at h
        rw [← h.2]
        exact h2
      · simp at h

/-- Finishing a proposal hands the event list through unchanged. -/
theorem finishProposal_ok_evs (cmd c' : replicatedCmd) (evs evs' : List SideEffect)
    (h : replicaStateMachine.finishProposal cmd evs = .ok (c', evs')) : evs' = evs := by
  unfold replicaStateMachine.finishProposal at h
  repeat' split at h
  all_goals simp_all

/-- Finishing an outstanding proposal always marks it applied. -/
theorem finishProposal_marks_applied (cmd c' : replicatedCmd)
    (evs evs' : List SideEffect) (p0 : ProposalData) (hp : cmd.proposal = some p0)
    (h : replicaStateMachine.finishProposal cmd evs = .ok (c', evs')) :
    c'.proposal = some { p0 with applied := true } := by
  unfold replicaStateMachine.finishProposal at h
  rw [hp] at h
  repeat' split at h
  all_goals simp_all
  all_goals rw [← h.1]

/-- A rejected command can never trip the success-only fatals while its
proposal is finished. -/
theorem finishProposal_rejected_no_fatal (cmd : replicatedCmd)
    (evs : List SideEffect) (hrej : cmd.Rejected = true) :
    replicaStateMachine.finishProposal cmd evs ≠ .error .leaseIndexMismatchOnFinish ∧
    replicaStateMachine.finishProposal cmd evs ≠ .error .doubleApply := by
  unfold replicaStateMachine.finishProposal
  cases hp : cmd.proposal
  · simp
  · simp [hrej]

/-- C7 counterexample: a command whose cleared result holds only a raft log
delta is non-empty after the trivial fields are cleared, yet a successful
`ApplySideEffects` runs its handler without the on-disk versus in-memory
state assertion — refuting "runs the handlers *and* asserts". -/
theorem applySideEffects_assertion_counterexample :
    cmdLogDelta.clearedResult ≠ ({} : ReplicatedEvalResult) ∧
    (replicaStateMachine.ApplySideEffects (fun _ => 0) cmdLogDelta).toOption.map Prod.snd =
      some [SideEffect.raftLogDeltaApplied 1] ∧
    SideEffect.stateAssertion ∉ [SideEffect.raftLogDeltaApplied 1] := by
  refine ⟨by decide, by rfl, by decide⟩

/-- C7 (amended): for a successful `ApplySideEffects` on a command whose
result is still non-empty after the trivial fields are cleared, the
non-trivial handler is run, and the on-disk versus in-memory state
assertion is performed *if and only if* the result still contains an
effect beyond the truncated-state, raft-log-delta and
suggested-compactions fields (the handler's shouldAssert verdict); a
result reduced to only those fields is handled without the assertion. -/
theorem applySideEffects_assertion (truncDelta : TruncatedState → Int)
    (cmdI c' : replicatedCmd) (evs : List SideEffect)
    (hok : replicaStateMachine.ApplySideEffects truncDelta cmdI = .ok (c', evs))
    (hnt : cmdI.clearedResult ≠ ({} : ReplicatedEvalResult)) :
    ∃ sa hevs,
      replicaStateMachine.handleNonTrivialReplicatedEvalResult truncDelta cmdI.clearedResult =
        .ok (sa, hevs) ∧
      evs = hevs ++ (if sa then [SideEffect.stateAssertion] else []) ++
        (if cmdI.clearedResult.raftLogDelta = 0 then [SideEffect.noRaftLogDelta] else []) ++
        (match cmdI.localResult with
         | some _ => [SideEffect.localResultHandled]
         | none => []) ++
        (match cmdI.ent.typ with
         | EntryType.normal => []
         | EntryType.confChange =>
             [SideEffect.confChangeApplied
               (if cmdI.clearedResult.changeReplicas.isNone then 0 else cmdI.cc)]) ∧
      (SideEffect.stateAssertion ∈ evs ↔ sa = true) := by
  have hidem : clearTrivialReplicatedEvalResultFields cmdI.clearedResult = cmdI.clearedResult :=
    clearTrivial_idem { cmdI.raftCmd.replicatedEvalResult with blockReads := false }
  have hTriv : isTrivialResult cmdI.clearedResult = false := by
    simp [isTrivialResult, hidem, hnt]
  simp only [replicaStateMachine.ApplySideEffects, hTriv, Bool.not_false, if_true, ite_true] at hok
  split at hok
  · simp at hok
  · rename_i evs1 hstep
    split at hstep
    · simp at hstep
    · rename_i sap hhand
      obtain ⟨sa, hevs⟩ := sap
      have hna := handleNonTrivial_no_assert truncDelta cmdI.clearedResult sa hevs hhand
      simp only [Except.ok.injEq] at hstep
      subst hstep
      have heqEvs : evs = hevs ++ (if sa then [SideEffect.stateAssertion] else []) ++
          (if cmdI.clearedResult.raftLogDelta = 0 then [SideEffect.noRaftLogDelta] else []) ++
          (match cmdI.localResult with
           | some _ => [SideEffect.localResultHandled]
           | none => []) ++
          (match cmdI.ent.typ with
           | EntryType.normal => []
           | EntryType.confChange =>
               [SideEffect.confChangeApplied
                 (if cmdI.clearedResult.changeReplicas.isNone then 0 else cmdI.cc)]) := by
        split at hok
        · rename_i htyp
          split at hok
          · simp at hok
          · rw [finishProposal_ok_evs _ _ _ _ hok]
            try simp
        · rename_i htyp
          rw [finishProposal_ok_evs _ _ _ _ hok]
          try simp
      refine ⟨sa, hevs, hhand, heqEvs, ?_⟩
      rw [heqEvs]
      cases sa
      · simp only [Bool.false_eq_true, iff_false]
        intro hmem
        simp only [List.mem_append] at hmem
        rcases hmem with ((((h1 | h1) | h1) | h1) | h1)
        · exact hna h1
        · simp at h1
        · revert h1
          split <;> simp
        · revert h1
          cases cmdI.localResult <;> simp
        · revert h1
          cases cmdI.ent.typ <;> simp
      · simp

theorem applySideEffects_assertion_witness :
    (SideEffect.stateAssertion ∈ [SideEffect.raftLogDeltaApplied 1]) ↔ (false = true) := by
  obtain ⟨sa, hevs, hhand, -, hiff⟩ := applySideEffects_assertion (fun _ => 0) cmdLogDelta
    cmdLogDelta [SideEffect.raftLogDeltaApplied 1] rfl (by decide)
  have h2 : (Except.ok ((false : Bool), [SideEffect.raftLogDeltaApplied 1]) :
      Except NonDetFailure (Bool × List SideEffect)) = .ok (sa, hevs) := by
    rw [← hhand]
    rfl
  simp only [Except.ok.injEq, Prod.mk.injEq] at h2
  rw [h2.1]
  exact hiff

/-- The non-trivial handler can only fail with its own two fatals. -/
theorem handleNonTrivial_error_shape (td : TruncatedState → Int)
    (r : ReplicatedEvalResult) (e : NonDetFailure)
    (h : replicaStateMachine.handleNonTrivialReplicatedEvalResult td r = .error e) :
    e = .zeroValueNonTrivialResult ∨ e = .unhandledField := by
  simp only [replicaStateMachine.handleNonTrivialReplicatedEvalResult] at h
  split at h
  · simp only [Except.error.injEq] at h
    exact Or.inl h.symm
  · split at h
    · simp at h
    · split at h
      · simp at h
      · simp only [Except.error.injEq] at h
        exact Or.inr h.symm

/-- C10: once `ApplySideEffects` succeeds for a locally proposed command,
the command's outstanding proposal is marked applied — also when the
command was rejected beneath consensus; and for a rejected local command
the lease-index-mismatch and double-apply fatals can never fire (they
guard only successful, non-rejected applications). -/
theorem applySideEffects_local_finish (truncDelta : TruncatedState → Int)
    (cmdI : replicatedCmd) (hlocal : cmdI.IsLocal = true) :
    (∀ c' evs, replicaStateMachine.ApplySideEffects truncDelta cmdI = .ok (c', evs) →
      ∃ p, c'.proposal = some p ∧ p.applied = true) ∧
    (cmdI.Rejected = true →
      replicaStateMachine.ApplySideEffects truncDelta cmdI ≠
        .error .leaseIndexMismatchOnFinish ∧
      replicaStateMachine.ApplySideEffects truncDelta cmdI ≠ .error .doubleApply) := by
  obtain ⟨p0, hp⟩ := Option.isSome_iff_exists.mp hlocal
  have hp2 : ({ cmdI with raftCmd := { cmdI.raftCmd with
      replicatedEvalResult := cmdI.clearedResult } } : replicatedCmd).proposal = some p0 := hp
  constructor
  · intro c' evs hok
    simp only [replicaStateMachine.ApplySideEffects] at hok
    repeat' split at hok
    all_goals first
      | exact ⟨{ p0 with applied := true },
          finishProposal_marks_applied _ _ _ _ p0 hp2 hok, rfl⟩
      | simp at hok
  · intro hrej
    have hrej' : ({ cmdI with raftCmd := { cmdI.raftCmd with
        replicatedEvalResult := cmdI.clearedResult } } : replicatedCmd).Rejected = true := hrej
    constructor <;>
    · intro habs
      simp only [replicaStateMachine.ApplySideEffects] at habs
      repeat' split at habs
      all_goals first
        | exact absurd habs ((finishProposal_rejected_no_fatal _ _ hrej').1)
        | exact absurd habs ((finishProposal_rejected_no_fatal _ _ hrej').2)
        | (simp at habs
           done)
        | (rename_i e1 hstep
           simp only [Except.error.injEq] at habs
           subst habs
           split at hstep
           · split at hstep
             · rename_i e2 hh
               simp only [Except.error.injEq] at hstep
               subst hstep
               rcases handleNonTrivial_error_shape _ _ _ hh with h | h <;> simp at h
             · simp at hstep
           · split at hstep <;> simp at hstep)

theorem applySideEffects_local_finish_witness :
    (∃ p, (match replicaStateMachine.ApplySideEffects (fun _ => 0) cmdRejLocal with
           | .ok (c, _) => c.proposal
           | .error _ => none) = some p ∧ p.applied = true) ∧
    replicaStateMachine.ApplySideEffects (fun _ => 0) cmdRejLocal ≠ .error .doubleApply := by
  have h := applySideEffects_local_finish (fun _ => 0) cmdRejLocal rfl
  constructor
  · obtain ⟨p, hp, ha⟩ := h.1
      { cmdRejLocal with
          raftCmd := { cmdRejLocal.raftCmd with replicatedEvalResult := {} },
          proposal := some { maxLeaseIndex := 55, applied := true } }
      [SideEffect.noRaftLogDelta] rfl
    exact ⟨p, by rw [← hp]; rfl, ha⟩
  · exact (h.2 rfl).2

end RaftApply
